import Mathlib

/-!
# django-elect: formal model of the election core

A shallow embedding of the django-elect election core.  The repository ships
`views.py` and `tests/test_models.py`; the model layer (`models.py`) is modelled
from the specification (each such definition carries a `Modelled from the spec:`
doc comment).  Entity tables are Lean lists kept in creation order; identities,
primary keys and timestamps are natural numbers / integers.
-/

set_option autoImplicit false

namespace DjangoElect

/-- Voting method discriminator of a Ballot: `Pl` = Plurality, `Pr` = Preferential. -/
inductive BallotType where
  | Pl
  | Pr
deriving DecidableEq, Repr

/-- Modelled from the spec: an Election row — vote-window start/end timestamps and
the allow-list of voter identities (`allowed_voters`, possibly empty). -/
structure Election where
  id : Nat
  vote_start : Int
  vote_end : Int
  allowed_voters : List Nat
deriving DecidableEq, Repr

/-- Modelled from the spec: a Ballot row — belongs to an Election, with a voting
method discriminator. -/
structure Ballot where
  id : Nat
  election : Nat
  btype : BallotType
deriving DecidableEq, Repr

/-- Modelled from the spec: a Candidate row — belongs to a Ballot. -/
structure Candidate where
  id : Nat
  ballot : Nat
deriving DecidableEq, Repr

/-- Modelled from the spec: a Vote row — belongs to an Election, with a nullable
voter-identity reference (`account`). -/
structure Vote where
  id : Nat
  election : Nat
  account : Option Nat
deriving DecidableEq, Repr

/-- Modelled from the spec: a Plurality VoteEntry — belongs to a Vote and
references one Candidate. -/
structure VotePlurality where
  id : Nat
  vote : Nat
  candidate : Nat
deriving DecidableEq, Repr

/-- Modelled from the spec: a Preferential VoteEntry — belongs to a Vote,
references one Candidate and carries an integer point value. -/
structure VotePreferential where
  id : Nat
  vote : Nat
  candidate : Nat
  point : Int
deriving DecidableEq, Repr

/-- The persistent state: one list per table, each in creation order. -/
structure DB where
  elections : List Election
  ballots : List Ballot
  candidates : List Candidate
  votes : List Vote
  pluralities : List VotePlurality
  preferentials : List VotePreferential
deriving DecidableEq, Repr

/-- The empty database. -/
def DB.empty : DB :=
  { elections := [], ballots := [], candidates := [], votes := [],
    pluralities := [], preferentials := [] }

/-- The error raised by `create_vote` (name as in `tests/test_models.py`). -/
inductive VotingNotAllowedException where
  | mk
deriving DecidableEq, Repr

/-- The Votes belonging to the election with primary key `eid`, in creation order. -/
def DB.electionVotes (db : DB) (eid : Nat) : List Vote :=
  db.votes.filter (fun v => v.election == eid)

/-- The Ballots belonging to election `e`, in creation order. -/
def Election.electionBallots (e : Election) (db : DB) : List Ballot :=
  db.ballots.filter (fun b => b.election == e.id)

/-- The Candidates belonging to ballot `b`, in creation order. -/
def Ballot.ballotCandidates (b : Ballot) (db : DB) : List Candidate :=
  db.candidates.filter (fun c => c.ballot == b.id)

/-- The method of the Ballot that candidate `c` belongs to (defaulting to
Plurality when the ballot row is absent). -/
def DB.candidateBallotType (db : DB) (c : Candidate) : BallotType :=
  match db.ballots.find? (fun b => b.id == c.ballot) with
  | some b => b.btype
  | none => BallotType.Pl

/-- Modelled from the spec: `Election.voting_allowed` — true iff current time ≥
vote-window start and current time < vote-window end. -/
def Election.voting_allowed (e : Election) (now : Int) : Bool :=
  decide (e.vote_start ≤ now) && decide (now < e.vote_end)

/-- Modelled from the spec: `Election.has_voted(identity)` — true iff a Vote
exists for this Election with that non-null voter identity. -/
def Election.has_voted (e : Election) (db : DB) (i : Nat) : Bool :=
  (db.electionVotes e.id).any (fun v => v.account == some i)

/-- Modelled from the spec: `Election.voting_allowed_for_user(identity)` — true
iff `voting_allowed()` AND (allow-list is empty OR identity ∈ allow-list) AND NOT
`has_voted(identity)`. -/
def Election.voting_allowed_for_user (e : Election) (db : DB) (now : Int) (i : Nat) : Bool :=
  e.voting_allowed now
    && (e.allowed_voters.isEmpty || e.allowed_voters.contains i)
    && !(e.has_voted db i)

/-- A primary key unused by any existing Vote row. -/
def DB.freshVoteId (db : DB) : Nat :=
  (db.votes.map Vote.id).foldl max 0 + 1

/-- Modelled from the spec: `Election.create_vote(identity)` — fails with
`VotingNotAllowedException` when `voting_allowed_for_user(identity)` is false;
otherwise creates and persists an empty Vote bound to this Election and identity
and returns it. -/
def Election.create_vote (e : Election) (db : DB) (now : Int) (i : Nat) :
    Except VotingNotAllowedException (Vote × DB) :=
  if e.voting_allowed_for_user db now i then
    let v : Vote := { id := db.freshVoteId, election := e.id, account := some i }
    Except.ok (v, { db with votes := db.votes ++ [v] })
  else
    Except.error VotingNotAllowedException.mk

/-- Modelled from the spec: `Election.disassociate_accounts()` — for every Vote
in this Election, clears the voter-identity reference to null; nothing else is
touched. -/
def Election.disassociate_accounts (e : Election) (db : DB) : DB :=
  { db with votes := db.votes.map (fun v =>
      if v.election == e.id then { v with account := none } else v) }

/-- The Plurality entries of vote `v` selecting candidate `c`. -/
def Vote.pluralityFor (v : Vote) (db : DB) (c : Candidate) : List VotePlurality :=
  db.pluralities.filter (fun p => p.vote == v.id && p.candidate == c.id)

/-- The Preferential entries of vote `v` selecting candidate `c`. -/
def Vote.preferentialFor (v : Vote) (db : DB) (c : Candidate) : List VotePreferential :=
  db.preferentials.filter (fun p => p.vote == v.id && p.candidate == c.id)

/-- Modelled from the spec: the numeric value vote `v` recorded for candidate
`c` — for a Plurality Candidate, 1 if selected else 0; for a Preferential
Candidate, the recorded point value if selected else 0. -/
def Vote.pointFor (v : Vote) (db : DB) (c : Candidate) : Int :=
  match db.candidateBallotType c with
  | BallotType.Pl => if (v.pluralityFor db c).isEmpty then 0 else 1
  | BallotType.Pr =>
      match db.preferentials.find? (fun p => p.vote == v.id && p.candidate == c.id) with
      | some p => p.point
      | none => 0

/-- Modelled from the spec: `Vote.get_points_for_candidates(candidates)` — for
each Candidate in the input order, the numeric value this Vote recorded for it. -/
def Vote.get_points_for_candidates (v : Vote) (db : DB) (cs : List Candidate) : List Int :=
  cs.map (fun c => v.pointFor db c)

/-- Modelled from the spec: the tally contribution of candidate `c` on ballot
`b` — for a Plurality ballot the number of entries across all Votes of the
owning Election referencing `c`; for a Preferential ballot the sum of the point
values of such entries. -/
def Ballot.candidateCount (b : Ballot) (db : DB) (c : Candidate) : Int :=
  match b.btype with
  | BallotType.Pl =>
      ((db.pluralities.filter (fun p => p.candidate == c.id
          && (db.electionVotes b.election).any (fun v => v.id == p.vote))).length : Int)
  | BallotType.Pr =>
      ((db.preferentials.filter (fun p => p.candidate == c.id
          && (db.electionVotes b.election).any (fun v => v.id == p.vote))).foldl
        (fun acc p => acc + p.point) 0)

/-- Modelled from the spec: `Ballot.get_candidate_stats()` — one `(Candidate,
count)` pair per Candidate of this Ballot, in Candidate creation order. -/
def Ballot.get_candidate_stats (b : Ballot) (db : DB) : List (Candidate × Int) :=
  (b.ballotCandidates db).map (fun c => (c, b.candidateCount db c))

/-- The result record of `get_full_statistics`; the `votes` mapping is an
association list in Vote creation order. -/
structure Statistics where
  ballots : List Ballot
  candidates : List Candidate
  votes : List (Vote × List Int)
deriving DecidableEq, Repr

/-- Modelled from the spec: `Election.get_full_statistics()` — the Ballots in
creation order, the flattened candidate list (ballot order, then candidate
creation order), and the mapping from each Vote to its points vector. -/
def Election.get_full_statistics (e : Election) (db : DB) : Statistics :=
  let bs := e.electionBallots db
  let cs := (bs.map (fun b => b.ballotCandidates db)).flatten
  { ballots := bs
    candidates := cs
    votes := (db.electionVotes e.id).map
      (fun v => (v, v.get_points_for_candidates db cs)) }

/-- Insertion of one new Vote together with its VoteEntries (the write done by
the voting workflow between two statistics calls). -/
def DB.insertVote (db : DB) (v : Vote) (ps : List VotePlurality)
    (qs : List VotePreferential) : DB :=
  { db with
    votes := db.votes ++ [v]
    pluralities := db.pluralities ++ ps
    preferentials := db.preferentials ++ qs }

/-! ## The `vote` web view (`views.py`)

The gating and vote-creation logic of `views.py`'s `vote` function.  Form
construction and rendering are abstracted into three booleans: whether the POST
contains the `vote` key, whether every ballot form validates, and whether any
form has a selected candidate. -/

/-- The observable outcome of one request to the `vote` view. -/
inductive VoteOutcome where
  | redirectLogin
  | voteCreated
  | noneSelected
  | renderForm
deriving DecidableEq, Repr

/-- The `vote` view of `views.py`: redirect to the login page when
`voting_allowed()` is false or `has_voted(user)` is true; otherwise, on a POST
containing `vote` whose forms all validate, either create a Vote directly via
`Vote.objects.create(account=request.user, election=election)` (when some
candidate was selected) or report that none were selected.  The allow-list
(`voting_allowed_for_user`) is never consulted. -/
def vote_view (db : DB) (now : Int) (e : Election) (user : Nat)
    (postHasVote allFormsValid anyCandidates : Bool) : VoteOutcome × DB :=
  if !(e.voting_allowed now) || e.has_voted db user then
    (VoteOutcome.redirectLogin, db)
  else if postHasVote && allFormsValid then
    if anyCandidates then
      (VoteOutcome.voteCreated,
        { db with votes := db.votes
            ++ [{ id := db.freshVoteId, election := e.id, account := some user }] })
    else (VoteOutcome.noneSelected, db)
  else (VoteOutcome.renderForm, db)

/-! ## Transition system

The writers of the core are `create_vote` and `disassociate_accounts`;
administrative collaborators create Elections, Ballots, Candidates and the
VoteEntries that populate a freshly created Vote. -/

/-- One write to the database: an administrative insertion, a successful
`create_vote`, or a `disassociate_accounts` run. -/
inductive Step : DB → DB → Prop where
  | addElection (db : DB) (e : Election) :
      Step db { db with elections := db.elections ++ [e] }
  | addBallot (db : DB) (b : Ballot) :
      Step db { db with ballots := db.ballots ++ [b] }
  | addCandidate (db : DB) (c : Candidate) :
      Step db { db with candidates := db.candidates ++ [c] }
  | addPlurality (db : DB) (p : VotePlurality) :
      Step db { db with pluralities := db.pluralities ++ [p] }
  | addPreferential (db : DB) (q : VotePreferential) :
      Step db { db with preferentials := db.preferentials ++ [q] }
  | createVote (db : DB) (now : Int) (e : Election) (i : Nat) (v : Vote) (db2 : DB) :
      e.create_vote db now i = Except.ok (v, db2) → Step db db2
  | disassociate (db : DB) (e : Election) :
      Step db (e.disassociate_accounts db)

/-- States reachable from the empty database by core writes. -/
inductive Reachable : DB → Prop where
  | init : Reachable DB.empty
  | step {db db2 : DB} : Reachable db → Step db db2 → Reachable db2

/-- At most one Vote per (Election, non-null voter identity) pair. -/
def OneVotePerAccount (db : DB) : Prop :=
  ∀ eid i : Nat,
    (db.votes.filter (fun v => v.election == eid && v.account == some i)).length ≤ 1

/-! ## Spec-side tally counts (the words of §4.2, for comparison) -/

/-- The number of Plurality entries, across all Votes of ballot `b`'s election,
referencing candidate `c` — stated with `countP` and an existential, following
the claim's words. -/
def specPluralityCount (db : DB) (b : Ballot) (c : Candidate) : Nat :=
  db.pluralities.countP (fun p => p.candidate == c.id
    && decide (∃ v ∈ db.electionVotes b.election, v.id = p.vote))

/-- The sum of the point values of the Preferential entries, across all Votes of
ballot `b`'s election, referencing candidate `c`. -/
def specPreferentialSum (db : DB) (b : Ballot) (c : Candidate) : Int :=
  ((db.preferentials.filter (fun p => p.candidate == c.id
      && decide (∃ v ∈ db.electionVotes b.election, v.id = p.vote))).map
    VotePreferential.point).sum

/-! ## Concrete fixtures (mirroring `tests/test_models.py`) -/

/-- An election with an open window `[0, 10)` and an empty allow-list. -/
def eEx : Election := { id := 1, vote_start := 0, vote_end := 10, allowed_voters := [] }

/-- An election with an open window and allow-list `[5]`. -/
def eAllow : Election := { id := 2, vote_start := 0, vote_end := 10, allowed_voters := [5] }

/-- A database holding just `eEx`. -/
def dbEx : DB := { DB.empty with elections := [eEx] }

/-- `dbEx` after identity 1 has voted in `eEx`. -/
def dbVoted : DB :=
  { dbEx with votes := [{ id := 1, election := 1, account := some 1 }] }

/-- The two-vote fixture of `test_disassociate_accounts`. -/
def dbTwoVotes : DB :=
  { dbEx with votes := [{ id := 1, election := 1, account := some 1 },
                        { id := 2, election := 1, account := some 2 }] }

/-- The mixed-ballot fixture of `test_full_statistics`: a Plurality ballot with
candidates 1–3, a Preferential ballot with candidates 4–5, and a first vote
selecting candidate 1 and assigning points 2 and 3 to candidates 4 and 5. -/
def dbStats : DB :=
  { DB.empty with
    elections := [eEx]
    ballots := [{ id := 1, election := 1, btype := BallotType.Pl },
                { id := 2, election := 1, btype := BallotType.Pr }]
    candidates := [{ id := 1, ballot := 1 }, { id := 2, ballot := 1 },
                   { id := 3, ballot := 1 }, { id := 4, ballot := 2 },
                   { id := 5, ballot := 2 }]
    votes := [{ id := 1, election := 1, account := some 1 }]
    pluralities := [{ id := 1, vote := 1, candidate := 1 }]
    preferentials := [{ id := 1, vote := 1, candidate := 4, point := 2 },
                      { id := 2, vote := 1, candidate := 5, point := 3 }] }

/-- The first vote of `dbStats`. -/
def vote1Ex : Vote := { id := 1, election := 1, account := some 1 }

/-- The second vote of `test_full_statistics`, inserted between the two calls. -/
def vote2Ex : Vote := { id := 2, election := 1, account := some 2 }

/-- The Plurality entries of `vote2Ex` (candidates 3 and 2). -/
def ps2Ex : List VotePlurality :=
  [{ id := 2, vote := 2, candidate := 3 }, { id := 3, vote := 2, candidate := 2 }]

/-- The Preferential entries of `vote2Ex` (point 3 on candidate 4). -/
def qs2Ex : List VotePreferential := [{ id := 3, vote := 2, candidate := 4, point := 3 }]

/-- The Plurality ballot of `dbStats` (and of `dbDup`). -/
def bPlEx : Ballot := { id := 1, election := 1, btype := BallotType.Pl }

/-- The Preferential ballot of `dbStats`. -/
def bPrEx : Ballot := { id := 2, election := 1, btype := BallotType.Pr }

/-- The duplicate-entry fixture of `test_get_candidate_stats` (Plurality): one
ballot, one candidate, one vote that already holds one entry for the candidate. -/
def dbDup : DB :=
  { DB.empty with
    elections := [eEx]
    ballots := [{ id := 1, election := 1, btype := BallotType.Pl }]
    candidates := [{ id := 1, ballot := 1 }]
    votes := [{ id := 1, election := 1, account := some 1 }]
    pluralities := [{ id := 1, vote := 1, candidate := 1 }] }

/-! ## Theorems -/

/-- Claim C8: `voting_allowed()` is true iff the current time is ≥ the
vote-window start and strictly < the vote-window end (start inclusive, end
exclusive). -/
theorem voting_allowed_iff_window (e : Election) (now : Int) :
    e.voting_allowed now = true ↔ (e.vote_start ≤ now ∧ now < e.vote_end) := by
  simp [Election.voting_allowed]

/-- Witness for C8 at the exact window boundaries of `eEx` (`[0, 10)`): voting
is allowed at the opening timestamp and refused at the closing one. -/
theorem voting_allowed_iff_window_witness :
    eEx.voting_allowed 0 = true ∧ eEx.voting_allowed 10 = false :=
  ⟨(voting_allowed_iff_window eEx 0).mpr (by decide), by decide⟩

/-- Claim C2: `voting_allowed_for_user(i)` is true iff `voting_allowed()` holds,
the allow-list is empty or contains `i`, and `has_voted(i)` is false; in
particular it is false whenever `has_voted(i)` is true. -/
theorem voting_allowed_for_user_iff (db : DB) (now : Int) (e : Election) (i : Nat) :
    (e.voting_allowed_for_user db now i = true ↔
      (e.voting_allowed now = true
        ∧ (e.allowed_voters = [] ∨ i ∈ e.allowed_voters)
        ∧ e.has_voted db i = false)) ∧
    (e.has_voted db i = true → e.voting_allowed_for_user db now i = false) := by
  constructor
  · simp [Election.voting_allowed_for_user, List.isEmpty_iff, List.elem_iff, and_assoc]
  · intro h
    simp [Election.voting_allowed_for_user, h]

/-- Witness for C2 at the fixture where identity 1 has already voted. -/
theorem voting_allowed_for_user_iff_witness :
    eEx.has_voted dbVoted 1 = true ∧ eEx.voting_allowed_for_user dbVoted 5 1 = false :=
  ⟨by decide, (voting_allowed_for_user_iff dbVoted 5 eEx 1).2 (by decide)⟩

/-- Claim C1: `create_vote(i)` fails with `VotingNotAllowedException` exactly
when `voting_allowed_for_user(i)` is false; when it is true it persists one new
empty Vote referencing this Election and identity `i`, and returns it. -/
theorem create_vote_spec (db : DB) (now : Int) (e : Election) (i : Nat) :
    (e.voting_allowed_for_user db now i = false →
      e.create_vote db now i = Except.error VotingNotAllowedException.mk) ∧
    (e.voting_allowed_for_user db now i = true →
      ∃ v : Vote,
        e.create_vote db now i = Except.ok (v, { db with votes := db.votes ++ [v] })
          ∧ v.election = e.id ∧ v.account = some i) := by
  constructor
  · intro h
    simp [Election.create_vote, h]
  · intro h
    refine ⟨{ id := db.freshVoteId, election := e.id, account := some i }, ?_, rfl, rfl⟩
    simp [Election.create_vote, h]

/-- Witness for C1: identity 1 is eligible in `dbEx` at time 5, and identity 1
is refused in the allow-listed election `eAllow`. -/
theorem create_vote_spec_witness :
    (eEx.voting_allowed_for_user dbEx 5 1 = true
      ∧ ∃ v : Vote,
          eEx.create_vote dbEx 5 1 = Except.ok (v, { dbEx with votes := dbEx.votes ++ [v] })
            ∧ v.election = eEx.id ∧ v.account = some 1)
    ∧ eAllow.create_vote dbEx 5 1 = Except.error VotingNotAllowedException.mk :=
  ⟨⟨by decide, (create_vote_spec dbEx 5 eEx 1).2 (by decide)⟩,
    (create_vote_spec dbEx 5 eAllow 1).1 (by decide)⟩

/-- Claim C6: `disassociate_accounts()` nulls the voter identity of every Vote
of this Election and changes nothing else — the Vote count, every other table,
every Vote's id/election pair, and Votes of other Elections are untouched — and
afterwards `has_voted` is false for every identity. -/
theorem disassociate_accounts_spec (db : DB) (e : Election) :
    (e.disassociate_accounts db).votes.length = db.votes.length ∧
    (e.disassociate_accounts db).pluralities = db.pluralities ∧
    (e.disassociate_accounts db).preferentials = db.preferentials ∧
    (e.disassociate_accounts db).elections = db.elections ∧
    (e.disassociate_accounts db).ballots = db.ballots ∧
    (e.disassociate_accounts db).candidates = db.candidates ∧
    (e.disassociate_accounts db).votes.map (fun v => (v.id, v.election))
      = db.votes.map (fun v => (v.id, v.election)) ∧
    (∀ v ∈ (e.disassociate_accounts db).votes, v.election = e.id → v.account = none) ∧
    (∀ v ∈ (e.disassociate_accounts db).votes, v.election ≠ e.id → v ∈ db.votes) ∧
    ∀ i : Nat, e.has_voted (e.disassociate_accounts db) i = false := by
  refine ⟨by simp [Election.disassociate_accounts], rfl, rfl, rfl, rfl, rfl, ?_, ?_, ?_, ?_⟩
  · simp only [Election.disassociate_accounts, List.map_map]
    refine List.map_congr_left (fun v _ => ?_)
    by_cases hv : v.election = e.id <;> simp [hv]
  · intro v hv hel
    simp only [Election.disassociate_accounts, List.mem_map] at hv
    obtain ⟨w, _, hw⟩ := hv
    by_cases h : w.election = e.id
    · simp [h] at hw
      simp [← hw]
    · simp [h] at hw
      cases hw
      exact absurd hel h
  · intro v hv hel
    simp only [Election.disassociate_accounts, List.mem_map] at hv
    obtain ⟨w, hwm, hw⟩ := hv
    by_cases h : w.election = e.id
    · simp [h] at hw
      have hv2 : v.election = e.id := by rw [← hw]
      exact absurd hv2 hel
    · simp [h] at hw
      cases hw
      exact hwm
  · intro i
    simp only [Election.has_voted, DB.electionVotes, Election.disassociate_accounts]
    rw [List.any_eq_false]
    intro v hv
    simp only [List.mem_filter, List.mem_map] at hv
    obtain ⟨⟨w, hwm, hw⟩, hel⟩ := hv
    by_cases h : w.election = e.id
    · simp [h] at hw
      simp [← hw]
    · simp [h] at hw
      subst hw
      simp_all

/-- Witness for C6 at the two-vote fixture. -/
theorem disassociate_accounts_spec_witness :
    (eEx.disassociate_accounts dbTwoVotes).votes.length = dbTwoVotes.votes.length ∧
    eEx.has_voted (eEx.disassociate_accounts dbTwoVotes) 1 = false :=
  ⟨(disassociate_accounts_spec dbTwoVotes eEx).1,
    (disassociate_accounts_spec dbTwoVotes eEx).2.2.2.2.2.2.2.2.2 1⟩

/-- Claim C5: in every state reachable by core writes, each Election has at most
one Vote per non-null voter identity. -/
theorem one_vote_per_account_reachable (db : DB) (h : Reachable db) :
    OneVotePerAccount db := by
  induction h with
  | init =>
    intro eid i
    simp [DB.empty]
  | @step d db2 hr hs ih =>
    cases hs with
    | addElection e => exact ih
    | addBallot b => exact ih
    | addCandidate c => exact ih
    | addPlurality p => exact ih
    | addPreferential q => exact ih
    | createVote now e i v db2 hok =>
      have hcond : e.voting_allowed_for_user d now i = true := by
        by_contra hc
        rw [Bool.not_eq_true] at hc
        simp [Election.create_vote, hc] at hok
      simp only [Election.create_vote, hcond, if_true, Except.ok.injEq,
        Prod.mk.injEq] at hok
      obtain ⟨hv, hdb⟩ := hok
      have hnv : e.has_voted d i = false := by
        simp only [Election.voting_allowed_for_user, Bool.and_eq_true,
          Bool.not_eq_eq_eq_not, Bool.not_true] at hcond
        exact hcond.2
      intro eid j
      rw [← hdb, hv]
      show ((d.votes ++ [v]).filter
        (fun w => w.election == eid && w.account == some j)).length ≤ 1
      rw [List.filter_append, List.length_append]
      by_cases hm : (v.election == eid && v.account == some j) = true
      · have hmatch : eid = e.id ∧ j = i := by
          rw [← hv] at hm
          simp only [Bool.and_eq_true, beq_iff_eq, Option.some.injEq] at hm
          exact ⟨hm.1.symm, hm.2.symm⟩
        obtain ⟨he, hj⟩ := hmatch
        subst he
        subst hj
        have hnv2 : ∀ x ∈ d.votes, x.election = e.id → ¬ x.account = some j := by
          simpa [Election.has_voted, DB.electionVotes] using hnv
        have hzero :
            (d.votes.filter (fun w => w.election == e.id && w.account == some j)).length
              = 0 := by
          rw [List.length_eq_zero, List.filter_eq_nil_iff]
          intro w hw hcontra
          rw [Bool.and_eq_true] at hcontra
          exact hnv2 w hw (by simpa using hcontra.1) (by simpa using hcontra.2)
        rw [hzero]
        simpa using List.length_filter_le
          (fun w => w.election == e.id && w.account == some j) [v]
      · rw [Bool.not_eq_true] at hm
        rw [List.filter_cons]
        simp only [hm, Bool.false_eq_true, if_false, List.filter_nil,
          List.length_nil, Nat.add_zero]
        exact ih eid j
    | disassociate e =>
      intro eid j
      have hle :
          (((d.votes.map (fun v =>
              if v.election == e.id then { v with account := none } else v)).filter
            (fun v => v.election == eid && v.account == some j)).length)
            ≤ ((d.votes.filter (fun v => v.election == eid && v.account == some j)).length) := by
        rw [← List.countP_eq_length_filter, ← List.countP_eq_length_filter, List.countP_map]
        refine List.countP_mono_left (fun a _ hpa => ?_)
        simp only [Function.comp] at hpa
        by_cases h : a.election = e.id
        · simp [h] at hpa
        · simpa [h] using hpa
      exact le_trans hle (ih eid j)

/-- Witness for C5: the invariant holds in the concrete state reached by
creating `eEx` and then one vote for identity 1. -/
theorem one_vote_per_account_reachable_witness :
    (dbVoted.votes.filter (fun v => v.election == 1 && v.account == some 1)).length ≤ 1 :=
  one_vote_per_account_reachable dbVoted
    (Reachable.step (Reachable.step Reachable.init (Step.addElection DB.empty eEx))
      (Step.createVote dbEx 5 eEx 1 { id := 1, election := 1, account := some 1 } dbVoted
        (by rfl))) 1 1

/-- Folding `(· + ·.point)` from `a` equals `a` plus the sum of the points. -/
theorem foldl_add_point (l : List VotePreferential) (a : Int) :
    l.foldl (fun acc p => acc + p.point) a = a + (l.map VotePreferential.point).sum := by
  induction l generalizing a with
  | nil => simp
  | cons p l ih => simp [ih, add_assoc]

/-- The implementation's entry filter agrees with the claim's existential form
(Plurality entries). -/
theorem pluralityPred_agrees (db : DB) (b : Ballot) (c : Candidate) (p : VotePlurality) :
    (p.candidate == c.id && (db.electionVotes b.election).any (fun v => v.id == p.vote))
      = (p.candidate == c.id
          && decide (∃ v ∈ db.electionVotes b.election, v.id = p.vote)) := by
  apply Bool.eq_iff_iff.mpr
  simp [List.any_eq_true]

/-- The implementation's entry filter agrees with the claim's existential form
(Preferential entries). -/
theorem preferentialPred_agrees (db : DB) (b : Ballot) (c : Candidate)
    (p : VotePreferential) :
    (p.candidate == c.id && (db.electionVotes b.election).any (fun v => v.id == p.vote))
      = (p.candidate == c.id
          && decide (∃ v ∈ db.electionVotes b.election, v.id = p.vote)) := by
  apply Bool.eq_iff_iff.mpr
  simp [List.any_eq_true]

/-- Claim C3: `get_candidate_stats()` returns exactly one pair per Candidate of
the Ballot, in Candidate creation order; the count of a Plurality ballot is the
number of entries across all Votes of the owning Election referencing the
candidate, and the count of a Preferential ballot is the sum of the point
values of such entries. -/
theorem get_candidate_stats_spec (db : DB) (b : Ballot) :
    (b.get_candidate_stats db).map Prod.fst = b.ballotCandidates db ∧
    ∀ pr ∈ b.get_candidate_stats db,
      (b.btype = BallotType.Pl → pr.2 = (specPluralityCount db b pr.1 : Int)) ∧
      (b.btype = BallotType.Pr → pr.2 = specPreferentialSum db b pr.1) := by
  constructor
  · rw [Ballot.get_candidate_stats, List.map_map]
    exact List.map_id _ ▸ (List.map_congr_left fun c _ => rfl)
  · intro pr hpr
    simp only [Ballot.get_candidate_stats, List.mem_map] at hpr
    obtain ⟨c, hc, hpr⟩ := hpr
    subst hpr
    constructor
    · intro hb
      simp only [Ballot.candidateCount, hb, specPluralityCount,
        List.countP_eq_length_filter]
      rw [List.filter_congr (fun p _ => pluralityPred_agrees db b c p)]
    · intro hb
      simp only [Ballot.candidateCount, hb, specPreferentialSum]
      rw [List.filter_congr (fun p _ => preferentialPred_agrees db b c p),
        foldl_add_point, zero_add]

/-- Witness for C3 at the `test_full_statistics` fixture: the Plurality ballot
tallies one selection for candidate 1, the Preferential ballot sums points 2
and 3 for candidates 4 and 5. -/
theorem get_candidate_stats_spec_witness :
    (bPlEx.get_candidate_stats dbStats).map Prod.fst = bPlEx.ballotCandidates dbStats ∧
    (1 : Int) = (specPluralityCount dbStats bPlEx { id := 1, ballot := 1 } : Int) ∧
    (2 : Int) = specPreferentialSum dbStats bPrEx { id := 4, ballot := 2 } :=
  ⟨(get_candidate_stats_spec dbStats bPlEx).1,
    ((get_candidate_stats_spec dbStats bPlEx).2 ({ id := 1, ballot := 1 }, 1)
      (by decide)).1 rfl,
    ((get_candidate_stats_spec dbStats bPrEx).2 ({ id := 4, ballot := 2 }, 2)
      (by decide)).2 rfl⟩

/-- Claim C7: `get_points_for_candidates(cs)` has the same length as `cs`, its
`i`-th element is the value recorded for the `i`-th candidate, and that value
is 1/0 for a Plurality candidate according to selection, and the recorded point
value (or 0 when unselected) for a Preferential candidate. -/
theorem get_points_for_candidates_spec (db : DB) (v : Vote) (cs : List Candidate)
    (i : Nat) (hi : i < cs.length) :
    (v.get_points_for_candidates db cs).length = cs.length ∧
    (v.get_points_for_candidates db cs).get
        ⟨i, by simpa [Vote.get_points_for_candidates] using hi⟩
      = v.pointFor db (cs.get ⟨i, hi⟩) ∧
    (db.candidateBallotType (cs.get ⟨i, hi⟩) = BallotType.Pl →
      v.pointFor db (cs.get ⟨i, hi⟩)
        = if ∃ p ∈ db.pluralities, p.vote = v.id ∧ p.candidate = (cs.get ⟨i, hi⟩).id
          then 1 else 0) ∧
    (db.candidateBallotType (cs.get ⟨i, hi⟩) = BallotType.Pr →
      ((¬ ∃ q ∈ db.preferentials, q.vote = v.id ∧ q.candidate = (cs.get ⟨i, hi⟩).id) →
        v.pointFor db (cs.get ⟨i, hi⟩) = 0) ∧
      ∀ p ∈ db.preferentials, p.vote = v.id → p.candidate = (cs.get ⟨i, hi⟩).id →
        (∀ q ∈ db.preferentials, q.vote = v.id → q.candidate = (cs.get ⟨i, hi⟩).id →
          q = p) →
        v.pointFor db (cs.get ⟨i, hi⟩) = p.point) := by
  refine ⟨by simp [Vote.get_points_for_candidates], ?_, ?_, ?_⟩
  · simp [Vote.get_points_for_candidates, List.get_eq_getElem]
  · intro hty
    simp only [Vote.pointFor, hty]
    by_cases hex : ∃ p ∈ db.pluralities, p.vote = v.id
        ∧ p.candidate = (cs.get ⟨i, hi⟩).id
    · rw [if_pos hex]
      obtain ⟨p, hp, h1, h2⟩ := hex
      have hmem : p ∈ v.pluralityFor db (cs.get ⟨i, hi⟩) := by
        rw [Vote.pluralityFor, List.mem_filter]
        exact ⟨hp, by simp [h1, h2]⟩
      have hne : ¬ (v.pluralityFor db (cs.get ⟨i, hi⟩)).isEmpty = true := by
        rw [List.isEmpty_iff]
        intro hnil
        rw [hnil] at hmem
        exact absurd hmem (List.not_mem_nil p)
      rw [Bool.not_eq_true] at hne
      rw [hne]
      simp
    · rw [if_neg hex]
      have hemp : (cs.get ⟨i, hi⟩ |> v.pluralityFor db).isEmpty = true := by
        rw [List.isEmpty_iff, Vote.pluralityFor, List.filter_eq_nil_iff]
        intro p hp hcontra
        rw [Bool.and_eq_true] at hcontra
        exact hex ⟨p, hp, by simpa using hcontra.1, by simpa using hcontra.2⟩
      rw [if_pos hemp]
  · intro hty
    constructor
    · intro hex
      simp only [Vote.pointFor, hty]
      have hnone : db.preferentials.find?
          (fun p => p.vote == v.id && p.candidate == (cs.get ⟨i, hi⟩).id) = none := by
        rw [List.find?_eq_none]
        intro p hp hcontra
        rw [Bool.and_eq_true] at hcontra
        exact hex ⟨p, hp, by simpa using hcontra.1, by simpa using hcontra.2⟩
      rw [hnone]
    · intro p hp h1 h2 huniq
      simp only [Vote.pointFor, hty]
      cases hfind : db.preferentials.find?
          (fun q => q.vote == v.id && q.candidate == (cs.get ⟨i, hi⟩).id) with
      | none =>
        exact absurd
          (by simp [h1, h2] :
            (p.vote == v.id && p.candidate == (cs.get ⟨i, hi⟩).id) = true)
          (List.find?_eq_none.mp hfind p hp)
      | some r =>
        have hrm := List.mem_of_find?_eq_some hfind
        have hrp := List.find?_some hfind
        rw [Bool.and_eq_true] at hrp
        have : r = p := huniq r hrm (by simpa using hrp.1) (by simpa using hrp.2)
        rw [this]

/-- Witness for C7 at `dbStats`: the points vector of the first vote spans the
whole candidate list, and its 4th entry is the value recorded for candidate 4. -/
theorem get_points_for_candidates_spec_witness :
    (3 : Nat) < dbStats.candidates.length ∧
    (vote1Ex.get_points_for_candidates dbStats dbStats.candidates).length
      = dbStats.candidates.length ∧
    (vote1Ex.get_points_for_candidates dbStats dbStats.candidates).get ⟨3, by decide⟩
      = vote1Ex.pointFor dbStats (dbStats.candidates.get ⟨3, by decide⟩) :=
  ⟨by decide,
    (get_points_for_candidates_spec dbStats vote1Ex dbStats.candidates 3 (by decide)).1,
    (get_points_for_candidates_spec dbStats vote1Ex dbStats.candidates 3 (by decide)).2.1⟩

/-- Claim C9: a Vote may hold several entries for the same Candidate and each
entry contributes independently: appending one more Plurality entry for a
candidate of the ballot's election raises that candidate's tally by exactly 1,
and the stats pair reflects the incremented count. -/
theorem plurality_entries_count_independently (db : DB) (b : Ballot) (c : Candidate)
    (p : VotePlurality) (hb : b.btype = BallotType.Pl) (hc : p.candidate = c.id)
    (hv : (db.electionVotes b.election).any (fun w => w.id == p.vote) = true) :
    b.candidateCount { db with pluralities := db.pluralities ++ [p] } c
      = b.candidateCount db c + 1 ∧
    (c ∈ b.ballotCandidates db →
      (c, b.candidateCount db c + 1)
        ∈ b.get_candidate_stats { db with pluralities := db.pluralities ++ [p] }) := by
  have hcount : b.candidateCount { db with pluralities := db.pluralities ++ [p] } c
      = b.candidateCount db c + 1 := by
    simp only [Ballot.candidateCount, hb]
    show (((db.pluralities ++ [p]).filter (fun q => q.candidate == c.id
        && (db.electionVotes b.election).any (fun w => w.id == q.vote))).length : Int)
      = _ + 1
    rw [List.filter_append]
    have hsing : [p].filter (fun q => q.candidate == c.id
        && (db.electionVotes b.election).any (fun w => w.id == q.vote)) = [p] := by
      simp [hc, hv]
    rw [hsing, List.length_append]
    simp only [List.length_singleton]
    push_cast
    ring
  refine ⟨hcount, fun hmem => ?_⟩
  rw [Ballot.get_candidate_stats, List.mem_map]
  exact ⟨c, hmem, by rw [hcount]⟩

/-- Witness for C9 at `dbDup`: the vote already holds one entry for candidate 1;
a second entry for the same vote and candidate brings the tally to 2, as in the
Plurality `test_get_candidate_stats`. -/
theorem plurality_entries_count_independently_witness :
    bPlEx.btype = BallotType.Pl ∧
    bPlEx.candidateCount
        { dbDup with pluralities := dbDup.pluralities
            ++ [{ id := 2, vote := 1, candidate := 1 }] } { id := 1, ballot := 1 }
      = bPlEx.candidateCount dbDup { id := 1, ballot := 1 } + 1 ∧
    bPlEx.candidateCount dbDup { id := 1, ballot := 1 } = 1 :=
  ⟨rfl,
    (plurality_entries_count_independently dbDup bPlEx { id := 1, ballot := 1 }
      { id := 2, vote := 1, candidate := 1 } rfl rfl (by decide)).1,
    by decide⟩

/-- Inserting a Vote with a fresh id, together with entries that reference only
that Vote, leaves every other Vote's points vector unchanged. -/
theorem points_unaffected_by_insert (db : DB) (v : Vote) (ps : List VotePlurality)
    (qs : List VotePreferential) (w : Vote) (hw : w.id ≠ v.id)
    (hps : ∀ p ∈ ps, p.vote = v.id) (hqs : ∀ q ∈ qs, q.vote = v.id)
    (cs : List Candidate) :
    w.get_points_for_candidates (db.insertVote v ps qs) cs
      = w.get_points_for_candidates db cs := by
  rw [Vote.get_points_for_candidates, Vote.get_points_for_candidates]
  refine List.map_congr_left (fun c _ => ?_)
  have hbt : (db.insertVote v ps qs).candidateBallotType c = db.candidateBallotType c := rfl
  rw [Vote.pointFor, Vote.pointFor, hbt]
  cases db.candidateBallotType c with
  | Pl =>
    have hpl : w.pluralityFor (db.insertVote v ps qs) c = w.pluralityFor db c := by
      rw [Vote.pluralityFor, Vote.pluralityFor]
      show (db.pluralities ++ ps).filter _ = _
      rw [List.filter_append]
      have : ps.filter (fun p => p.vote == w.id && p.candidate == c.id) = [] := by
        rw [List.filter_eq_nil_iff]
        intro p hp hcontra
        rw [Bool.and_eq_true] at hcontra
        exact absurd (by simpa [hps p hp] using hcontra.1) (Ne.symm hw)
      rw [this, List.append_nil]
    rw [hpl]
  | Pr =>
    have hpr : (db.insertVote v ps qs).preferentials.find?
          (fun p => p.vote == w.id && p.candidate == c.id)
        = db.preferentials.find? (fun p => p.vote == w.id && p.candidate == c.id) := by
      show (db.preferentials ++ qs).find? _ = _
      rw [List.find?_append]
      have : qs.find? (fun p => p.vote == w.id && p.candidate == c.id) = none := by
        rw [List.find?_eq_none]
        intro q hq hcontra
        rw [Bool.and_eq_true] at hcontra
        exact absurd (by simpa [hqs q hq] using hcontra.1) (Ne.symm hw)
      rw [this]
      simp
    rw [hpr]

/-- Claim C4: `get_full_statistics()` returns the Ballots in creation order, the
flattened candidate list in ballot-then-creation order, and one points vector
per Vote of the Election; inserting one fresh Vote (with its entries) between
two calls leaves `ballots` and `candidates` unchanged and appends exactly one
entry to `votes`, existing entries keeping their values. -/
theorem get_full_statistics_spec (db : DB) (e : Election) (v : Vote)
    (ps : List VotePlurality) (qs : List VotePreferential)
    (hfresh : ∀ w ∈ db.votes, w.id ≠ v.id) (hel : v.election = e.id)
    (hps : ∀ p ∈ ps, p.vote = v.id) (hqs : ∀ q ∈ qs, q.vote = v.id) :
    (e.get_full_statistics db).ballots = e.electionBallots db ∧
    (e.get_full_statistics db).candidates
      = ((e.electionBallots db).map (fun b => b.ballotCandidates db)).flatten ∧
    (e.get_full_statistics db).votes
      = (db.electionVotes e.id).map
          (fun w => (w, w.get_points_for_candidates db (e.get_full_statistics db).candidates)) ∧
    (e.get_full_statistics (db.insertVote v ps qs)).ballots
      = (e.get_full_statistics db).ballots ∧
    (e.get_full_statistics (db.insertVote v ps qs)).candidates
      = (e.get_full_statistics db).candidates ∧
    (e.get_full_statistics (db.insertVote v ps qs)).votes
      = (e.get_full_statistics db).votes
        ++ [(v, v.get_points_for_candidates (db.insertVote v ps qs)
              (e.get_full_statistics db).candidates)] := by
  refine ⟨rfl, rfl, rfl, rfl, rfl, ?_⟩
  have hev : DB.electionVotes (db.insertVote v ps qs) e.id
      = DB.electionVotes db e.id ++ [v] := by
    show (db.votes ++ [v]).filter _ = _
    rw [List.filter_append]
    have : [v].filter (fun w => w.election == e.id) = [v] := by
      simp [hel]
    rw [this]
    rfl
  show (DB.electionVotes (db.insertVote v ps qs) e.id).map _ = _
  rw [hev, List.map_append]
  congr 1
  refine List.map_congr_left (fun w hw => ?_)
  have hwid : w.id ≠ v.id := hfresh w (List.mem_of_mem_filter hw)
  rw [points_unaffected_by_insert db v ps qs w hwid hps hqs]
  have hcs : (List.map (fun b => b.ballotCandidates (db.insertVote v ps qs))
        (e.electionBallots (db.insertVote v ps qs))).flatten
      = (List.map (fun b => b.ballotCandidates db) (e.electionBallots db)).flatten := rfl
  rw [hcs]

/-- Witness for C4 at the `test_full_statistics` fixture: the first call maps
the first vote to `[1, 0, 0, 2, 3]`; after inserting the second vote the lists
are unchanged and the mapping gains exactly `(vote2, [0, 1, 1, 3, 0])`. -/
theorem get_full_statistics_spec_witness :
    (eEx.get_full_statistics dbStats).votes = [(vote1Ex, [1, 0, 0, 2, 3])] ∧
    (eEx.get_full_statistics (dbStats.insertVote vote2Ex ps2Ex qs2Ex)).candidates
      = (eEx.get_full_statistics dbStats).candidates ∧
    (eEx.get_full_statistics (dbStats.insertVote vote2Ex ps2Ex qs2Ex)).votes
      = (eEx.get_full_statistics dbStats).votes
        ++ [(vote2Ex, vote2Ex.get_points_for_candidates (dbStats.insertVote vote2Ex ps2Ex qs2Ex)
              (eEx.get_full_statistics dbStats).candidates)] ∧
    vote2Ex.get_points_for_candidates (dbStats.insertVote vote2Ex ps2Ex qs2Ex)
        (eEx.get_full_statistics dbStats).candidates = [0, 1, 1, 3, 0] :=
  ⟨by decide,
    (get_full_statistics_spec dbStats eEx vote2Ex ps2Ex qs2Ex
      (by decide) rfl (by decide) (by decide)).2.2.2.2.1,
    (get_full_statistics_spec dbStats eEx vote2Ex ps2Ex qs2Ex
      (by decide) rfl (by decide) (by decide)).2.2.2.2.2,
    by decide⟩

/-- Claim C10: the `vote` view gates only on `voting_allowed()` and
`has_voted(user)` and then creates the Vote directly: a logged-in user who is
not on a non-empty allow-list, has not voted, and submits a valid selection
during an open window gets a Vote recorded — even though
`voting_allowed_for_user` would have refused them. -/
theorem vote_view_ignores_allow_list (db : DB) (now : Int) (e : Election) (user : Nat)
    (hwin : e.voting_allowed now = true)
    (hnv : e.has_voted db user = false)
    (hne : e.allowed_voters ≠ [])
    (hnm : user ∉ e.allowed_voters) :
    (vote_view db now e user true true true).1 = VoteOutcome.voteCreated ∧
    (vote_view db now e user true true true).2.votes
      = db.votes ++ [{ id := db.freshVoteId, election := e.id, account := some user }] ∧
    e.has_voted (vote_view db now e user true true true).2 user = true ∧
    e.voting_allowed_for_user db now user = false := by
  have h1 : vote_view db now e user true true true
      = (VoteOutcome.voteCreated,
        { db with votes := db.votes
            ++ [{ id := db.freshVoteId, election := e.id, account := some user }] }) := by
    rw [vote_view]
    simp [hwin, hnv]
  refine ⟨by rw [h1], by rw [h1], ?_, ?_⟩
  · rw [h1, Election.has_voted, DB.electionVotes, List.any_eq_true]
    refine ⟨{ id := db.freshVoteId, election := e.id, account := some user },
      List.mem_filter.mpr ⟨?_, by simp⟩, by simp⟩
    exact List.mem_append_right _ (List.mem_singleton_self _)
  · have hc : e.allowed_voters.contains user = false := by
      rw [← Bool.not_eq_true]
      simpa [List.elem_iff] using hnm
    have hie : e.allowed_voters.isEmpty = false := by
      rw [← Bool.not_eq_true]
      simpa [List.isEmpty_iff] using hne
    rw [Election.voting_allowed_for_user, hc, hie]
    simp

/-- Witness for C10: in `eAllow` (allow-list `[5]`) user 1 is not allow-listed
and has not voted, yet submitting during the open window creates their Vote. -/
theorem vote_view_ignores_allow_list_witness :
    (eAllow.voting_allowed 5 = true ∧ eAllow.has_voted dbEx 1 = false
      ∧ eAllow.allowed_voters ≠ [] ∧ (1 : Nat) ∉ eAllow.allowed_voters) ∧
    (vote_view dbEx 5 eAllow 1 true true true).1 = VoteOutcome.voteCreated ∧
    eAllow.voting_allowed_for_user dbEx 5 1 = false :=
  ⟨⟨by decide, by decide, by decide, by decide⟩,
    (vote_view_ignores_allow_list dbEx 5 eAllow 1 (by decide) (by decide) (by decide)
      (by decide)).1,
    (vote_view_ignores_allow_list dbEx 5 eAllow 1 (by decide) (by decide) (by decide)
      (by decide)).2.2.2⟩

end DjangoElect
